import Mathlib

/-!
# Verification of the Dingtalk bridge service (src/index.js)

Shallow embedding of the session/concurrency layer, the signature check,
the message parser and the agent invoker of the bridge service, together
with proofs of its specified properties.

Conventions: JavaScript `Map` values are modelled as association lists with
distinct keys; JavaScript timestamps are integers; JavaScript values that a
function may receive as `null`, a primitive or an object are modelled by the
inductive `JSValue`; a thrown `TypeError` is modelled by `Except.error`.
-/

set_option autoImplicit false

namespace Dingtalk

/-! ## Timestamps and session entries -/

/-- JavaScript timestamps (`Date.now()`), modelled as integers so that the
difference `now - lastActivity` in the sweep is honest subtraction. -/
abbrev Timestamp := Int

/-- The object stored in `CONFIG.sessions` for one key:
`{ lastActivity: Date.now(), processing: true }`. -/
structure SessionEntry where
  lastActivity : Timestamp
  processing : Bool
deriving Repr, DecidableEq

/-- The `CONFIG.sessions` map, as an association list from session id
strings to entries. The no-duplicate-keys invariant is stated separately. -/
abbrev SessionMap := List (String × SessionEntry)

/-- `Map.has(k)`. -/
def mapHas (m : SessionMap) (k : String) : Bool :=
  m.any (fun kv => kv.1 == k)

/-- `Map.set(k, v)`: replaces the value when the key exists, otherwise
appends the pair (JavaScript maps keep insertion order). -/
def mapSet (m : SessionMap) (k : String) (v : SessionEntry) : SessionMap :=
  match m with
  | [] => [(k, v)]
  | kv :: rest => if kv.1 == k then (k, v) :: rest else kv :: mapSet rest k v

/-- `Map.delete(k)`. -/
def mapDelete (m : SessionMap) (k : String) : SessionMap :=
  m.filter (fun kv => !(kv.1 == k))

/-- The map has no two entries with the same key. -/
def keysNodup (m : SessionMap) : Prop :=
  (m.map Prod.fst).Nodup

/-- `getSessionId(chatId, userId)`: the template literal
contains the string `undefined` when a field is missing. -/
def jsTemplateStr (o : Option String) : String :=
  match o with
  | none => "undefined"
  | some s => s

/-- `getSessionId(chatId, userId)` returns the single string token
`chatId:userId`. -/
def getSessionId (chatId userId : Option String) : String :=
  jsTemplateStr chatId ++ ":" ++ jsTemplateStr userId

/-! ## Configuration constants that the claims mention -/

/-- `CONFIG.sessionTimeout = 5 * 60 * 1000`. -/
def sessionTimeoutMs : Int := 5 * 60 * 1000

/-! ## The sweep (`cleanupSessions`) -/

/-- Body of `cleanupSessions`, parameterised by the current time and the
timeout: deletes every entry with `now - session.lastActivity > ttl`. -/
def cleanupSessionsAt (sessions : SessionMap) (now ttl : Int) : SessionMap :=
  sessions.filter (fun kv => decide (now - kv.2.lastActivity ≤ ttl))

/-- `cleanupSessions()` as the source runs it: the timeout is the fixed
configuration value `CONFIG.sessionTimeout`. -/
def cleanupSessions (sessions : SessionMap) (now : Timestamp) : SessionMap :=
  cleanupSessionsAt sessions now sessionTimeoutMs

/-! ## JavaScript payload values and the message parser -/

/-- The `text` field of a Dingtalk payload. -/
structure TextField where
  content : Option String
deriving Repr, DecidableEq

/-- The `senderId` field of a Dingtalk payload. -/
structure SenderIdField where
  id : Option String
deriving Repr, DecidableEq

/-- The fields of a Dingtalk payload object that
`parseDingtalkMessage` reads; a missing field is `none` (undefined). -/
structure DingtalkFields where
  text : Option TextField
  senderStaffId : Option String
  senderId : Option SenderIdField
  conversationId : Option String
  conversationType : Option String
deriving Repr, DecidableEq

/-- Whitespace as the JavaScript `trim` builtin strips it (space, tab and
line terminators). -/
def isJsSpace (c : Char) : Bool :=
  c = ' ' || c = '\t' || c = '\n' || c = '\r'

/-- The JavaScript `String.prototype.trim` builtin: strips whitespace from
both ends. -/
def jsTrim (s : String) : String :=
  String.mk (((s.data.dropWhile isJsSpace).reverse.dropWhile isJsSpace).reverse)

/-- The payload object with every field missing, i.e. `{}`. -/
def emptyFields : DingtalkFields :=
  { text := none, senderStaffId := none, senderId := none,
    conversationId := none, conversationType := none }

/-- A JavaScript value as `parseDingtalkMessage` can receive it: `null` or
`undefined` (property access throws a TypeError), a primitive (property
access yields undefined), or a payload object. -/
inductive JSValue where
  | nullish
  | primStr (s : String)
  | primNum (n : Int)
  | primBool (b : Bool)
  | obj (fields : DingtalkFields)
deriving Repr, DecidableEq

/-- The error a thrown `TypeError` surfaces as. -/
inductive ParseError where
  | typeError
deriving Repr, DecidableEq

/-- The normalized message object built by `parseDingtalkMessage`. -/
structure InboundMessage where
  type : String
  content : String
  userId : Option String
  chatId : Option String
  isGroup : Bool
deriving Repr, DecidableEq

/-- JavaScript truthiness of a possibly-undefined string: `undefined` and
the empty string are falsy. -/
def jsTruthy (o : Option String) : Bool :=
  match o with
  | none => false
  | some s => s != ""

/-- `a || b` on possibly-undefined strings, with string truthiness. -/
def jsOrStr (a b : Option String) : Option String :=
  if jsTruthy a then a else b

/-- `data.senderId?.id`: undefined when `senderId` is undefined. -/
def senderIdId (f : DingtalkFields) : Option String :=
  match f.senderId with
  | none => none
  | some s => s.id

/-- `parseDingtalkMessage(data)`. Property access on `null`/`undefined`
throws (`Except.error`); on a primitive it yields `undefined`, so the
`data.text?.content` guard is falsy and the function returns `null`
(`Except.ok none`). On an object it returns the normalized message when
`data.text?.content` is truthy, otherwise `null`. -/
def parseDingtalkMessage : JSValue → Except ParseError (Option InboundMessage)
  | .nullish => .error .typeError
  | .primStr _ => .ok none
  | .primNum _ => .ok none
  | .primBool _ => .ok none
  | .obj f =>
    match f.text with
    | none => .ok none
    | some t =>
      match t.content with
      | none => .ok none
      | some c =>
        if c == "" then .ok none
        else .ok (some
          { type := "text"
            content := jsTrim c
            userId := jsOrStr f.senderStaffId (senderIdId f)
            chatId := f.conversationId
            isGroup := f.conversationType == some "group" })

/-! ## The signature check (`verifySignature`) -/

/-- `verifySignature(timestamp, sign, body)`. The HMAC primitive
(`crypto.createHmac("sha256", key)` followed by `digest("base64")`) is
Node library code, passed in as the black-box `hmacSha256Base64`
taking the key and the message. The `body` argument is part of the source
signature and is never read. -/
def verifySignature (hmacSha256Base64 : String → String → String)
    (signKey : String) (timestamp sign : String) (body : JSValue) : Bool :=
  if signKey == "" then true
  else
    let stringToSign := timestamp ++ "\n" ++ signKey
    let computedSign := hmacSha256Base64 signKey stringToSign
    sign == computedSign

/-! ## The agent invoker (`sendToMoltbot`) -/

/-- Outcome of the `execAsync` call: either the promise resolves with the
two output streams, or it rejects with an error carrying the `killed` flag
(set by the timeout kill) and a message. -/
inductive ProcResult where
  | exited (stdout stderr : String)
  | failed (killed : Bool) (message : String)
deriving Repr, DecidableEq

/-- Reply when both output streams are empty. -/
def emptyReplyMessage : String := "消息已发送，但未收到回复"

/-- Reply when the process was killed by the timeout. -/
def timeoutReplyMessage : String := "处理超时，请稍后再试"

/-- Prefix of the reply for any other process failure. -/
def failReplyPrefix : String := "处理失败: "

/-- `sendToMoltbot(message, chatId)`, as a function of the process
outcome: trimmed stdout when non-empty; otherwise trimmed stderr when
stderr is non-empty; otherwise the placeholder; on a rejected promise the
timeout reply when `error.killed`, else the failure reply with the error
message. -/
def sendToMoltbot : ProcResult → String
  | .exited stdout stderr =>
    let response := jsTrim stdout
    if response == "" then
      if stderr != "" then jsTrim stderr else emptyReplyMessage
    else response
  | .failed killed message =>
    if killed then timeoutReplyMessage else failReplyPrefix ++ message

/-! ## Shell command construction and quote escaping -/

/-- `message.replace(/"/g, '\\"')` on the character list. -/
def escapeQuotesList : List Char → List Char
  | [] => []
  | c :: t => if c = '"' then '\\' :: '"' :: escapeQuotesList t else c :: escapeQuotesList t

/-- The escaping applied to the message before interpolation. -/
def escapeQuotes (m : String) : String :=
  String.mk (escapeQuotesList m.data)

/-- The interpolated command string
`"{path} agent --message \"{escaped}\" --timeout 120"`. -/
def buildCommand (moltbotPath m : String) : String :=
  moltbotPath ++ " agent --message \"" ++ escapeQuotes m ++ "\" --timeout 120"

/-- POSIX double-quote scanner, started inside the double-quoted argument.
The flag records a pending backslash: inside double quotes a backslash and
its successor are consumed together (literally when the successor is not
special, as an escape when it is, e.g. for `"`). Returns `true` when the
scanned region breaks the argument boundary: an unescaped `"` closes the
argument early, or the region ends with a pending backslash that will
escape the closing `"` of the template. -/
def dqScan : Bool → List Char → Bool
  | pending, [] => pending
  | true, _ :: t => dqScan false t
  | false, c :: t =>
    if c = '\\' then dqScan true t
    else if c = '"' then true
    else dqScan false t

/-- Whether the escaped form of the message breaks out of the
double-quoted `--message` argument of the constructed command. -/
def messageBreaksOut (m : String) : Bool :=
  dqScan false (escapeQuotesList m.data)

/-! ## The asynchronous dispatch -/

/-- Observable actions of the webhook handler, in program order:
the HTTP response to the webhook caller, the agent process invocation,
and an outbound delivery through the Dingtalk webhook. -/
inductive Event where
  | respond (status : String)
  | invokeAgent (message : String)
  | deliver (text : String)
deriving Repr, DecidableEq

/-- Events of the asynchronous pipeline, as opposed to the already-sent
webhook response. -/
def isPipelineEvent : Event → Bool
  | .respond _ => false
  | .invokeAgent _ => true
  | .deliver _ => true

/-- Outcome of the body of the `try` block in the asynchronous dispatch:
either `sendToMoltbot` resolves with a process outcome, or the body throws
(the `catch` branch). -/
inductive InvokeOutcome where
  | result (r : ProcResult)
  | thrown
deriving Repr, DecidableEq

/-- The duplicate notice sent when a session is already in flight. -/
def waitNotice : String := "请稍候，我正在思考..."

/-- The apology sent by the `catch` branch of the dispatch. -/
def apologyMessage : String := "抱歉，处理消息时出错"

/-- The synchronous check-and-create step of the dispatch: if
`CONFIG.sessions.has(sessionId)` the map is untouched and the caller takes
the duplicate branch (`false`); otherwise a fresh entry is stored
(`CONFIG.sessions.set`) and the caller proceeds (`true`). There is no
suspension point between the check and the create. -/
def dispatchAcquire (sessions : SessionMap) (sessionId : String) (now : Timestamp) :
    Bool × SessionMap :=
  if mapHas sessions sessionId then (false, sessions)
  else (true, mapSet sessions sessionId { lastActivity := now, processing := true })

/-- The asynchronous IIFE of the webhook handler: on the duplicate branch
it only delivers the wait notice; on the acquired branch it invokes the
agent, delivers the reply (or the apology when the body throws), and the
`finally` step deletes the entry. Returns the emitted events and the final
session map. -/
def asyncDispatch (sessions : SessionMap) (msg : InboundMessage) (now : Timestamp)
    (o : InvokeOutcome) : List Event × SessionMap :=
  let sessionId := getSessionId msg.chatId msg.userId
  let acq := dispatchAcquire sessions sessionId now
  if acq.1 then
    let evts := match o with
      | .result r => [Event.invokeAgent msg.content, Event.deliver (sendToMoltbot r)]
      | .thrown => [Event.invokeAgent msg.content, Event.deliver apologyMessage]
    (evts, mapDelete acq.2 sessionId)
  else
    ([Event.deliver waitNotice], acq.2)

/-! ## Keyword filter -/

/-- Whether `pat` occurs at the start of `l`. -/
def startsWithList : List Char → List Char → Bool
  | [], _ => true
  | _ :: _, [] => false
  | a :: as, b :: bs => a == b && startsWithList as bs

/-- Whether `pat` occurs somewhere in `l`. -/
def containsList (pat : List Char) : List Char → Bool
  | [] => startsWithList pat []
  | c :: t => startsWithList pat (c :: t) || containsList pat t

/-- `s.includes(pat)`. -/
def strIncludes (s pat : String) : Bool :=
  containsList pat.data s.data

/-! ## The webhook handler -/

/-- The signature-rejection guard of the handler:
`timestamp && sign && !verifySignature(timestamp, sign, body)`. -/
def sigRejected (hmac : String → String → String) (signKey : String)
    (tsHeader signHeader : Option String) (body : JSValue) : Bool :=
  jsTruthy tsHeader && jsTruthy signHeader &&
    !(verifySignature hmac signKey (tsHeader.getD "") (signHeader.getD "") body)

/-- The keyword guard of the handler:
`CONFIG.dingtalkKeyword && !message.content.includes(CONFIG.dingtalkKeyword)`. -/
def keywordMismatch (keyword content : String) : Bool :=
  keyword != "" && !(strIncludes content keyword)

/-- The `POST /webhook/dingtalk` handler: signature check, parse (a thrown
TypeError reaches the outer catch and answers 500), keyword filter, then
the `ok` acknowledgment followed by the asynchronous dispatch. Returns the
events in program order and the final session map. -/
def webhookHandler (hmac : String → String → String) (signKey keyword : String)
    (sessions : SessionMap) (tsHeader signHeader : Option String) (body : JSValue)
    (now : Timestamp) (o : InvokeOutcome) : List Event × SessionMap :=
  if sigRejected hmac signKey tsHeader signHeader body then
    ([Event.respond "401"], sessions)
  else
    match parseDingtalkMessage body with
    | .error _ => ([Event.respond "500"], sessions)
    | .ok none => ([Event.respond "ignored"], sessions)
    | .ok (some msg) =>
      if keywordMismatch keyword msg.content then
        ([Event.respond "keyword_mismatch"], sessions)
      else
        let p := asyncDispatch sessions msg now o
        (Event.respond "ok" :: p.1, p.2)

/-! ## Case analysis of the agent invoker, following the claimed taxonomy -/

/-- The five outcome cases named by the specification. -/
inductive AgentCase where
  | stdoutReply
  | stderrFallback
  | emptyOutput
  | timedOut
  | procFailure
deriving Repr, DecidableEq

/-- Which case applies to a process outcome, per the specification text:
non-empty trimmed stdout; empty trimmed stdout with non-empty stderr; both
empty; killed by the timeout; any other failure. -/
def agentCaseApplies : AgentCase → ProcResult → Prop
  | .stdoutReply, .exited stdout _ => jsTrim stdout ≠ ""
  | .stderrFallback, .exited stdout stderr => jsTrim stdout = "" ∧ stderr ≠ ""
  | .emptyOutput, .exited stdout stderr => jsTrim stdout = "" ∧ stderr = ""
  | .timedOut, .failed killed _ => killed = true
  | .procFailure, .failed killed _ => killed = false
  | _, _ => False

/-- The reply the specification prescribes for each case. -/
def agentCaseReply : AgentCase → ProcResult → String
  | .stdoutReply, .exited stdout _ => jsTrim stdout
  | .stderrFallback, .exited _ stderr => jsTrim stderr
  | .emptyOutput, _ => emptyReplyMessage
  | .timedOut, _ => timeoutReplyMessage
  | .procFailure, .failed _ message => failReplyPrefix ++ message
  | _, _ => ""

/-! ## Helper lemmas on the session map -/

theorem mapHas_iff_mem_keys (m : SessionMap) (k : String) :
    mapHas m k = true ↔ k ∈ m.map Prod.fst := by
  simp [mapHas, List.any_eq_true, List.mem_map]

theorem mapHas_mapSet_self (m : SessionMap) (k : String) (v : SessionEntry) :
    mapHas (mapSet m k v) k = true := by
  induction m with
  | nil => simp [mapSet, mapHas]
  | cons kv rest ih =>
    by_cases h : kv.1 == k
    · simp [mapSet, h, mapHas]
    · simp only [mapSet, h, if_false, Bool.false_eq_true]
      simp only [mapHas, List.any_cons, h, Bool.false_or]
      simpa [mapHas] using ih

theorem keys_mapSet (m : SessionMap) (k : String) (v : SessionEntry) :
    (mapSet m k v).map Prod.fst =
      if mapHas m k then m.map Prod.fst else m.map Prod.fst ++ [k] := by
  induction m with
  | nil => simp [mapSet, mapHas]
  | cons kv rest ih =>
    by_cases h : kv.1 == k
    · have hk : kv.1 = k := by simpa using h
      simp [mapSet, h, mapHas, List.any_cons, hk]
    · simp only [mapSet, h, if_false, Bool.false_eq_true, List.map_cons,
        mapHas, List.any_cons, Bool.false_or]
      simp only [mapHas] at ih
      rw [ih]
      by_cases h2 : rest.any (fun kv => kv.1 == k)
      · simp [h2]
      · simp [h2]

theorem keysNodup_mapSet (m : SessionMap) (k : String) (v : SessionEntry)
    (h : keysNodup m) : keysNodup (mapSet m k v) := by
  unfold keysNodup at h ⊢
  rw [keys_mapSet]
  by_cases hk : mapHas m k
  · simpa [hk]
  · simp only [hk, if_false, Bool.false_eq_true]
    rw [List.nodup_append]
    refine ⟨h, List.nodup_singleton k, ?_⟩
    intro x hx hx'
    rcases List.mem_singleton.mp hx' with rfl
    exact hk ((mapHas_iff_mem_keys m x).mpr hx)

theorem mapHas_mapDelete_self (m : SessionMap) (k : String) :
    mapHas (mapDelete m k) k = false := by
  rw [Bool.eq_false_iff]
  intro h
  rcases List.mem_map.mp ((mapHas_iff_mem_keys _ _).mp h) with ⟨kv, hmem, hk⟩
  rcases List.mem_filter.mp hmem with ⟨_, hne⟩
  simp [hk] at hne

theorem keysNodup_mapDelete (m : SessionMap) (k : String)
    (h : keysNodup m) : keysNodup (mapDelete m k) := by
  unfold keysNodup at h ⊢
  exact h.sublist (List.Sublist.map Prod.fst (List.filter_sublist m))

theorem asyncDispatch_events_pipeline (s : SessionMap) (msg : InboundMessage)
    (now : Timestamp) (o : InvokeOutcome) :
    ∀ e ∈ (asyncDispatch s msg now o).1, isPipelineEvent e = true := by
  intro e he
  unfold asyncDispatch at he
  by_cases h : (dispatchAcquire s (getSessionId msg.chatId msg.userId) now).1
  · simp only [h, if_true] at he
    cases o with
    | result r =>
      simp only [List.mem_cons, List.mem_singleton] at he
      rcases he with rfl | rfl | h'
      · rfl
      · rfl
      · cases h'
    | thrown =>
      simp only [List.mem_cons, List.mem_singleton] at he
      rcases he with rfl | rfl | h'
      · rfl
      · rfl
      · cases h'
  · simp only [h, if_false, Bool.false_eq_true, List.mem_singleton] at he
    subst he
    rfl

/-- A sample normalized message used in concrete instances. -/
def sampleMsg : InboundMessage :=
  { type := "text", content := "hi", userId := some "u1",
    chatId := some "c1", isGroup := true }

/-- A sample session entry used in concrete instances. -/
def sampleEntry : SessionEntry := { lastActivity := 5, processing := true }

/-! ## Claim theorems -/

/-- C1: at most one session entry exists per key (the key list stays
duplicate-free under check-and-create), of two check-and-create attempts
for the same key with no release in between exactly the first succeeds,
and while an entry exists a new inbound message for the same key emits
only the wait notice and never an agent invocation. -/
theorem session_single_flight (s : SessionMap) (k : String) (n1 n2 : Timestamp)
    (msg : InboundMessage) (now : Timestamp) (o : InvokeOutcome) :
    (mapHas s k = false →
      (dispatchAcquire s k n1).1 = true ∧
      (dispatchAcquire (dispatchAcquire s k n1).2 k n2).1 = false) ∧
    (keysNodup s → keysNodup (dispatchAcquire s k n1).2) ∧
    (mapHas s (getSessionId msg.chatId msg.userId) = true →
      (asyncDispatch s msg now o).1 = [Event.deliver waitNotice] ∧
      ∀ m, Event.invokeAgent m ∉ (asyncDispatch s msg now o).1) := by
  refine ⟨?_, ?_, ?_⟩
  · intro h
    constructor
    · simp [dispatchAcquire, h]
    · simp [dispatchAcquire, h, mapHas_mapSet_self]
  · intro h
    unfold dispatchAcquire
    by_cases hk : mapHas s k
    · simpa [hk]
    · simpa [hk] using keysNodup_mapSet s k _ h
  · intro h
    have : (asyncDispatch s msg now o).1 = [Event.deliver waitNotice] := by
      simp [asyncDispatch, dispatchAcquire, h]
    refine ⟨this, ?_⟩
    intro m hm
    rw [this] at hm
    simp at hm

/-- C1 witness: on the empty registry the first attempt acquires and the
second is refused; with an entry in flight the dispatch only delivers the
wait notice. -/
theorem session_single_flight_witness :
    ((dispatchAcquire [] "c1:u1" 5).1 = true ∧
      (dispatchAcquire (dispatchAcquire [] "c1:u1" 5).2 "c1:u1" 6).1 = false) ∧
    keysNodup (dispatchAcquire [] "c1:u1" 5).2 ∧
    ((asyncDispatch [("c1:u1", sampleEntry)] sampleMsg 6 InvokeOutcome.thrown).1 =
      [Event.deliver waitNotice] ∧
      ∀ m, Event.invokeAgent m ∉
        (asyncDispatch [("c1:u1", sampleEntry)] sampleMsg 6 InvokeOutcome.thrown).1) := by
  have h := session_single_flight [] "c1:u1" 5 6 sampleMsg 6 InvokeOutcome.thrown
  have h2 := session_single_flight [("c1:u1", sampleEntry)] "c1:u1" 5 6
    sampleMsg 6 InvokeOutcome.thrown
  exact ⟨h.1 (by decide), h.2.1 (by simp [keysNodup]), h2.2.2 (by decide)⟩

/-- C2: after the acquired branch of the dispatch completes the entry is
gone for every possible outcome (reply, timeout, failure or a thrown
exception), and a release followed by a check-and-create always
succeeds. -/
theorem release_unconditional (s : SessionMap) (msg : InboundMessage)
    (now : Timestamp) (o : InvokeOutcome) (k : String) (n : Timestamp) :
    (mapHas s (getSessionId msg.chatId msg.userId) = false →
      mapHas (asyncDispatch s msg now o).2 (getSessionId msg.chatId msg.userId) = false) ∧
    (dispatchAcquire (mapDelete s k) k n).1 = true := by
  constructor
  · intro h
    simp only [asyncDispatch, dispatchAcquire, h, if_false, Bool.false_eq_true, if_true]
    cases o <;> simp [mapHas_mapDelete_self]
  · simp [dispatchAcquire, mapHas_mapDelete_self]

/-- C2 witness: a concrete dispatch on a free key ends with the key
absent, for a timeout outcome. -/
theorem release_unconditional_witness :
    mapHas (asyncDispatch [] sampleMsg 5
      (InvokeOutcome.result (ProcResult.failed true "killed"))).2 "c1:u1" = false :=
  (release_unconditional [] sampleMsg 5
    (InvokeOutcome.result (ProcResult.failed true "killed")) "c1:u1" 5).1 (by decide)

/-- C3: the sweep keeps an entry exactly when `now - lastActivity ≤ ttl`,
i.e. removes it exactly when `now - lastActivity > ttl` (strict), and for
a nonnegative ttl it never removes an entry whose timestamp is `now`. -/
theorem sweep_iff (s : SessionMap) (now ttl : Int) (k : String) (e : SessionEntry) :
    (((k, e) ∈ cleanupSessionsAt s now ttl) ↔
      ((k, e) ∈ s ∧ ¬(now - e.lastActivity > ttl))) ∧
    (0 ≤ ttl → e.lastActivity = now → (k, e) ∈ s →
      (k, e) ∈ cleanupSessionsAt s now ttl) := by
  have hmem : ((k, e) ∈ cleanupSessionsAt s now ttl) ↔
      ((k, e) ∈ s ∧ now - e.lastActivity ≤ ttl) := by
    simp [cleanupSessionsAt, List.mem_filter]
  constructor
  · rw [hmem]
    exact and_congr_right (fun _ => (not_lt).symm)
  · intro httl hfresh hin
    rw [hmem]
    exact ⟨hin, by rw [hfresh]; simpa using httl⟩

/-- C3 witness: with the configured five-minute timeout, a freshly created
entry survives the sweep run at its creation instant. -/
theorem sweep_iff_witness :
    ("c1:u1", sampleEntry) ∈
      cleanupSessionsAt [("c1:u1", sampleEntry)] 5 sessionTimeoutMs :=
  (sweep_iff [("c1:u1", sampleEntry)] 5 sessionTimeoutMs "c1:u1" sampleEntry).2
    (by decide) rfl (by decide)

/-- C10: when an entry for the key already exists, the dispatch returns
the registry unchanged: the entry is neither removed nor refreshed. -/
theorem duplicate_branch_frame (s : SessionMap) (msg : InboundMessage)
    (now : Timestamp) (o : InvokeOutcome)
    (h : mapHas s (getSessionId msg.chatId msg.userId) = true) :
    (asyncDispatch s msg now o).2 = s := by
  simp [asyncDispatch, dispatchAcquire, h]

/-- C10 witness: a duplicate arrival at a later time leaves the stored
entry with its original timestamp. -/
theorem duplicate_branch_frame_witness :
    (asyncDispatch [("c1:u1", sampleEntry)] sampleMsg 9999 InvokeOutcome.thrown).2 =
      [("c1:u1", sampleEntry)] :=
  duplicate_branch_frame [("c1:u1", sampleEntry)] sampleMsg 9999
    InvokeOutcome.thrown (by decide)

/-- C9: the verifier ignores the request body entirely: its result is the
same for any two bodies. -/
theorem verifySignature_body_independent (hmac : String → String → String)
    (signKey timestamp sign : String) (b1 b2 : JSValue) :
    verifySignature hmac signKey timestamp sign b1 =
      verifySignature hmac signKey timestamp sign b2 := rfl

/-- C6: with an empty secret the verifier accepts every timestamp and
signature; with a secret it accepts exactly the base64 HMAC-SHA256 of
`timestamp\nsecret` keyed by the secret and rejects every other string. -/
theorem verifySignature_spec (hmac : String → String → String)
    (signKey timestamp sign : String) (body : JSValue) :
    (signKey = "" → verifySignature hmac signKey timestamp sign body = true) ∧
    (signKey ≠ "" →
      (verifySignature hmac signKey timestamp sign body = true ↔
        sign = hmac signKey (timestamp ++ "\n" ++ signKey))) := by
  constructor
  · intro h
    simp [verifySignature, h]
  · intro h
    simp [verifySignature, h]

/-- C6 witness: with secret `abc` and timestamp `1000`, the signature
equal to the black-box digest of `1000\nabc` is accepted. -/
theorem verifySignature_spec_witness :
    verifySignature (fun _ m => m) "abc" "1000" "1000\nabc" JSValue.nullish = true :=
  ((verifySignature_spec (fun _ m => m) "abc" "1000" "1000\nabc"
    JSValue.nullish).2 (by decide)).mpr rfl

/-- C5 counterexample: the string payload `foo` is not an object, yet the
parser returns `null` (ignore) instead of surfacing a malformed error. -/
theorem parse_nonobject_counterexample :
    parseDingtalkMessage (JSValue.primStr "foo") = Except.ok none ∧
    parseDingtalkMessage (JSValue.primStr "foo") ≠ Except.error ParseError.typeError :=
  ⟨rfl, fun h => Except.noConfusion h⟩

/-- The example payload of the specification:
`{text:{content:" hi "}, senderStaffId:"u1", conversationId:"c1",
conversationType:"group"}`. -/
def exampleFields : DingtalkFields :=
  { text := some { content := some " hi " }, senderStaffId := some "u1",
    senderId := none, conversationId := some "c1",
    conversationType := some "group" }

/-- C5 amended: the example payload maps to the normalized message, `{}`
maps to `null`, a `null`/`undefined` payload throws the malformed error,
and every primitive non-object payload maps to `null`. -/
theorem parse_spec :
    parseDingtalkMessage (JSValue.obj exampleFields) = Except.ok (some sampleMsg) ∧
    parseDingtalkMessage (JSValue.obj emptyFields) = Except.ok none ∧
    parseDingtalkMessage JSValue.nullish = Except.error ParseError.typeError ∧
    (∀ s, parseDingtalkMessage (JSValue.primStr s) = Except.ok none) ∧
    (∀ n, parseDingtalkMessage (JSValue.primNum n) = Except.ok none) ∧
    (∀ b, parseDingtalkMessage (JSValue.primBool b) = Except.ok none) :=
  ⟨rfl, rfl, rfl, fun _ => rfl, fun _ => rfl, fun _ => rfl⟩

/-- C4: every process outcome falls in exactly one of the five cases of
the taxonomy, and on each case the invoker returns the prescribed reply:
trimmed stdout; trimmed stderr as a success reply; the fixed placeholder;
the fixed timeout reply; the failure reply embedding the error text. -/
theorem agent_reply_cases (r : ProcResult) :
    (∃! c : AgentCase, agentCaseApplies c r) ∧
    (∀ c : AgentCase, agentCaseApplies c r → sendToMoltbot r = agentCaseReply c r) := by
  cases r with
  | exited stdout stderr =>
    by_cases h1 : jsTrim stdout = ""
    · by_cases h2 : stderr = ""
      · constructor
        · refine ⟨AgentCase.emptyOutput, ⟨h1, h2⟩, ?_⟩
          intro c hc
          cases c with
          | stdoutReply => exact absurd h1 hc
          | stderrFallback => exact absurd h2 hc.2
          | emptyOutput => rfl
          | timedOut => exact hc.elim
          | procFailure => exact hc.elim
        · intro c hc
          cases c with
          | stdoutReply => exact absurd h1 hc
          | stderrFallback => exact absurd h2 hc.2
          | emptyOutput => simp [sendToMoltbot, agentCaseReply, h1, h2]
          | timedOut => exact hc.elim
          | procFailure => exact hc.elim
      · constructor
        · refine ⟨AgentCase.stderrFallback, ⟨h1, h2⟩, ?_⟩
          intro c hc
          cases c with
          | stdoutReply => exact absurd h1 hc
          | stderrFallback => rfl
          | emptyOutput => exact absurd hc.2 h2
          | timedOut => exact hc.elim
          | procFailure => exact hc.elim
        · intro c hc
          cases c with
          | stdoutReply => exact absurd h1 hc
          | stderrFallback => simp [sendToMoltbot, agentCaseReply, h1, h2]
          | emptyOutput => exact absurd hc.2 h2
          | timedOut => exact hc.elim
          | procFailure => exact hc.elim
    · constructor
      · refine ⟨AgentCase.stdoutReply, h1, ?_⟩
        intro c hc
        cases c with
        | stdoutReply => rfl
        | stderrFallback => exact absurd hc.1 h1
        | emptyOutput => exact absurd hc.1 h1
        | timedOut => exact hc.elim
        | procFailure => exact hc.elim
      · intro c hc
        cases c with
        | stdoutReply => simp [sendToMoltbot, agentCaseReply, h1]
        | stderrFallback => exact absurd hc.1 h1
        | emptyOutput => exact absurd hc.1 h1
        | timedOut => exact hc.elim
        | procFailure => exact hc.elim
  | failed killed message =>
    cases killed with
    | true =>
      constructor
      · refine ⟨AgentCase.timedOut, rfl, ?_⟩
        intro c hc
        cases c with
        | stdoutReply => exact hc.elim
        | stderrFallback => exact hc.elim
        | emptyOutput => exact hc.elim
        | timedOut => rfl
        | procFailure => exact Bool.noConfusion hc
      · intro c hc
        cases c with
        | stdoutReply => exact hc.elim
        | stderrFallback => exact hc.elim
        | emptyOutput => exact hc.elim
        | timedOut => simp [sendToMoltbot, agentCaseReply]
        | procFailure => exact Bool.noConfusion hc
    | false =>
      constructor
      · refine ⟨AgentCase.procFailure, rfl, ?_⟩
        intro c hc
        cases c with
        | stdoutReply => exact hc.elim
        | stderrFallback => exact hc.elim
        | emptyOutput => exact hc.elim
        | timedOut => exact Bool.noConfusion hc
        | procFailure => rfl
      · intro c hc
        cases c with
        | stdoutReply => exact hc.elim
        | stderrFallback => exact hc.elim
        | emptyOutput => exact hc.elim
        | timedOut => exact Bool.noConfusion hc
        | procFailure => simp [sendToMoltbot, agentCaseReply]

/-- C4 witness: empty stdout with a non-empty stderr yields the trimmed
stderr as a success reply. -/
theorem agent_reply_cases_witness :
    sendToMoltbot (ProcResult.exited "" " warn ") =
      agentCaseReply AgentCase.stderrFallback (ProcResult.exited "" " warn ") :=
  (agent_reply_cases (ProcResult.exited "" " warn ")).2 AgentCase.stderrFallback
    ⟨rfl, by decide⟩

/-- C7 counterexample: for the one-character message `\` the escaped form
still breaks out of the double-quoted argument: the surviving backslash
escapes the closing quote of the command template. -/
theorem escape_breakout_counterexample : messageBreaksOut "\\" = true := rfl

theorem dqScan_escapeQuotesList (l : List Char) (h : '\\' ∉ l) :
    dqScan false (escapeQuotesList l) = false := by
  induction l with
  | nil => rfl
  | cons c t ih =>
    have hc : c ≠ '\\' := fun hq => h (hq ▸ List.mem_cons_self c t)
    have ht : '\\' ∉ t := fun hm => h (List.mem_cons_of_mem c hm)
    by_cases hq : c = '"'
    · subst hq
      have hred : escapeQuotesList ('"' :: t) = '\\' :: '"' :: escapeQuotesList t := rfl
      rw [hred]
      have hstep : dqScan false ('\\' :: '"' :: escapeQuotesList t) =
          dqScan false (escapeQuotesList t) := rfl
      rw [hstep]
      exact ih ht
    · have hred : escapeQuotesList (c :: t) = c :: escapeQuotesList t := by
        simp [escapeQuotesList, hq]
      rw [hred]
      have hstep : dqScan false (c :: escapeQuotesList t) =
          dqScan false (escapeQuotesList t) := by
        simp [dqScan, hc, hq]
      rw [hstep]
      exact ih ht

/-- C7 amended: the quote escaping keeps the message inside its
double-quoted argument boundary for every message that contains no
backslash character; a message containing a backslash can break out. -/
theorem escape_no_breakout (m : String) (h : '\\' ∉ m.data) :
    messageBreaksOut m = false :=
  dqScan_escapeQuotesList m.data h

/-- C7 witness: a message with embedded double quotes and no backslash
stays inside the argument. -/
theorem escape_no_breakout_witness : messageBreaksOut "say \"hi\" now" = false :=
  escape_no_breakout "say \"hi\" now" (by decide)

/-- C8: whenever the signature check, the parse and the keyword filter all
pass, the handler's event sequence starts with the `ok` response, and for
every pipeline outcome everything after it is pipeline activity (session
work, agent invocation, delivery), never another response: the response is
emitted before the pipeline begins and is unaffected by its outcome. -/
theorem ack_before_pipeline (hmac : String → String → String)
    (signKey keyword : String) (sessions : SessionMap)
    (tsHeader signHeader : Option String) (body : JSValue)
    (now : Timestamp) (msg : InboundMessage)
    (hsig : sigRejected hmac signKey tsHeader signHeader body = false)
    (hparse : parseDingtalkMessage body = Except.ok (some msg))
    (hkw : keywordMismatch keyword msg.content = false) :
    ∀ o : InvokeOutcome, ∃ rest : List Event,
      (webhookHandler hmac signKey keyword sessions tsHeader signHeader body now o).1 =
        Event.respond "ok" :: rest ∧
      (∀ e ∈ rest, isPipelineEvent e = true) := by
  intro o
  refine ⟨(asyncDispatch sessions msg now o).1, ?_,
    asyncDispatch_events_pipeline sessions msg now o⟩
  simp [webhookHandler, hsig, hparse, hkw]

/-- C8 witness: a concrete passing request is acknowledged with `ok`
first, followed only by pipeline events. -/
theorem ack_before_pipeline_witness :
    ∃ rest : List Event,
      (webhookHandler (fun _ _ => "") "" "" [] none none (JSValue.obj exampleFields) 0
        (InvokeOutcome.result (ProcResult.exited "ok" ""))).1 =
        Event.respond "ok" :: rest ∧
      (∀ e ∈ rest, isPipelineEvent e = true) :=
  ack_before_pipeline (fun _ _ => "") "" "" [] none none (JSValue.obj exampleFields) 0
    sampleMsg rfl rfl rfl (InvokeOutcome.result (ProcResult.exited "ok" ""))

end Dingtalk
